import Mathlib

/-!
Verification of the `stack` tool: the changeset description parser
(`src/changeset.rs`) and the `up` push pipeline (`src/main.rs`),
shallowly embedded in Lean.  Strings are modelled as `List Char`
(`"...".data` at concrete inputs); fallible Rust `Result` values are
modelled with `Except`; the environment, the git repository, the remote
and the forge are modelled as explicit inputs to the pipeline function.
-/

deriving instance DecidableEq for Except

namespace Stack

/-! ## Character and string helpers -/

/-- The whitespace class of the changeset regexes: the regex crate's `\s`
is Unicode by default, i.e. the characters with the White_Space property
(U+0009–U+000D, space, NEL, NBSP, OGHAM SPACE MARK, U+2000–U+200A, the
line and paragraph separators, NNBSP, MMSP and the ideographic space). -/
def isWsChar (c : Char) : Bool :=
  let n := c.toNat
  (9 ≤ n && n ≤ 13) || n == 32 || n == 0x85 || n == 0xa0 || n == 0x1680 ||
    (0x2000 ≤ n && n ≤ 0x200a) || n == 0x2028 || n == 0x2029 || n == 0x202f ||
    n == 0x205f || n == 0x3000

/-- The regex class `[0-9]` (codepoints 48–57). -/
def isDigitChar (c : Char) : Bool :=
  48 ≤ c.toNat && c.toNat ≤ 57

/-- Remove the literal sequence `p` from the front of `s`; `none` if `s`
does not start with `p`. -/
def dropPre : List Char → List Char → Option (List Char)
  | [], s => some s
  | _ :: _, [] => none
  | p :: ps, c :: cs => if p = c then dropPre ps cs else none

/-- Split on a separator character; mirrors Rust `str::split(sep)`
(an empty input yields one empty segment). -/
def splitOnChar (sep : Char) : List Char → List (List Char)
  | [] => [[]]
  | c :: cs =>
    let r := splitOnChar sep cs
    if c = sep then [] :: r
    else
      match r with
      | [] => [[c]]
      | x :: xs => (c :: x) :: xs

/-- Strip one trailing carriage return, as Rust `str::lines` does per line. -/
def stripCR (l : List Char) : List Char :=
  match l.getLast? with
  | some '\r' => l.dropLast
  | _ => l

/-- Rust `str::lines`: split at `'\n'`, a trailing line terminator yields
no final empty line, and a `'\r'` is stripped only as part of a `"\r\n"`
line ending — a final line without a terminating `'\n'` keeps a trailing
`'\r'` (`"foo\r"` is the single line `"foo\r"`). -/
def rustLines (s : List Char) : List (List Char) :=
  let parts := splitOnChar '\n' s
  match parts.getLast? with
  | some [] => parts.dropLast.map stripCR
  | some last => parts.dropLast.map stripCR ++ [last]
  | none => []

/-- Decimal value of a digit string (Rust `str::parse` on the digit capture,
before the `u64` range check). -/
def digitsToNat (ds : List Char) : Nat :=
  ds.foldl (fun a c => a * 10 + (c.toNat - '0'.toNat)) 0

/-! ## `src/changeset.rs`: pull-request reference resolution

`Changeset::parse_pull_request` builds the regex
`^\s*(https://github.com/{owner}/{repo}/pull/|http://github.com/{owner}/{repo}/pull/|#)?(?P<pr_number>[0-9]+)\s*$`
with `format!` and **no escaping**, splits its input on `','` and matches
each segment against it.  Because nothing is escaped, every `.` in the
formatted URL alternatives (the two dots of `github.com`, and any dot an
owner/repo name contributes) is a regex wildcard matching any single
non-newline character.  The embedding below therefore matches the URL
alternatives as sequences of single-character patterns in which `.` is a
wildcard; it is faithful for owner/repo values free of regex
metacharacters other than `.` (GitHub names draw on `[A-Za-z0-9_.-]`,
and of those only `.` is special outside a class). -/

/-- One single-character regex pattern of the formatted URL alternatives:
a literal character, or the unescaped `.` wildcard (any character except
newline). -/
inductive RePat
  | lit (c : Char)
  | dot
deriving DecidableEq

/-- Whether a single-character pattern matches a character. -/
def rePatMatches : RePat → Char → Bool
  | .lit p, c => p == c
  | .dot, c => !(c == '\n')

/-- Read a piece of the formatted regex as single-character patterns:
`.` becomes the wildcard, everything else is literal. -/
def toRePats (s : List Char) : List RePat :=
  s.map fun c => if c = '.' then .dot else .lit c

/-- Remove a match of the pattern sequence `ps` from the front of `s`;
`none` if `s` does not start with a match of `ps`. -/
def dropPrePat : List RePat → List Char → Option (List Char)
  | [], s => some s
  | _ :: _, [] => none
  | p :: ps, c :: cs => if rePatMatches p c then dropPrePat ps cs else none

/-- Errors of `Changeset::parse_pull_request` (the `ok_or_else` when the
regex does not match a segment, and the failing `parse::<u64>`). -/
inductive PrError
  | noMatch
  | numberOverflow
deriving DecidableEq

/-- The first URL alternative of the pull-request regex. -/
def prUrlHttps (owner repo : List Char) : List Char :=
  "https://github.com/".data ++ owner ++ "/".data ++ repo ++ "/pull/".data

/-- The second URL alternative of the pull-request regex. -/
def prUrlHttp (owner repo : List Char) : List Char :=
  "http://github.com/".data ++ owner ++ "/".data ++ repo ++ "/pull/".data

/-- The optional alternation group of the pull-request regex: strip a
match of the https URL form (with its wildcard dots), else of the http
URL form, else a leading `#`, else nothing.  (The alternatives are
mutually non-overlapping — the two URL forms differ at their literal
fifth character — and none starts with anything a digit can match, so
first-match is equivalent to the regex engine's leftmost-first search.) -/
def stripAlt (owner repo s : List Char) : List Char :=
  match dropPrePat (toRePats (prUrlHttps owner repo)) s with
  | some r => r
  | none =>
    match dropPrePat (toRePats (prUrlHttp owner repo)) s with
    | some r => r
    | none =>
      match dropPre "#".data s with
      | some r => r
      | none => s

/-- Match one comma-segment against the pull-request regex, returning the
`pr_number` capture. -/
def matchPrToken (owner repo s : List Char) : Option (List Char) :=
  let s1 := s.dropWhile isWsChar
  let s2 := stripAlt owner repo s1
  let digits := s2.takeWhile isDigitChar
  let rest := s2.dropWhile isDigitChar
  if digits.isEmpty then none
  else if rest.all isWsChar then some digits
  else none

/-- Resolve one comma-segment of a pull-request reference field: regex
match, then `parse::<u64>` on the capture (which fails exactly when the
number exceeds the `u64` range). -/
def resolveToken (s owner repo : List Char) : Except PrError Nat :=
  match matchPrToken owner repo s with
  | none => .error .noMatch
  | some ds =>
    if digitsToNat ds < 2 ^ 64 then .ok (digitsToNat ds)
    else .error .numberOverflow

/-- `Changeset::parse_pull_request`: split the field on `','` and resolve
every segment; the first failing segment aborts the whole call. -/
def parse_pull_request (s owner repo : List Char) : Except PrError (List Nat) :=
  (splitOnChar ',' s).mapM (fun seg => resolveToken seg owner repo)

/-! ## `src/changeset.rs`: `Changeset::new_from_string` -/

/-- The parsed changeset record (struct `Changeset`). -/
structure Changeset where
  title : List Char
  message : Option (List Char)
  pr : Option Nat
  dependencies : List Nat
deriving DecidableEq

/-- The `bail!` errors of `Changeset::new_from_string`. -/
inductive CsError
  | multiplePullRequestFields
  | pullRequestFieldNotExactlyOne
  | pullRequestFieldUnparsable
  | missingTitle
deriving DecidableEq

def pull_request_field_marker : List Char := "Pull request:".data

def dependency_field_marker : List Char := "Depends on:".data

/-- The mutable locals of `new_from_string` while its `for` loop runs. -/
structure ParseState where
  title : Option (List Char)
  message : List (List Char)
  pr : Option Nat
  dependencies : List Nat
deriving DecidableEq

/-- One iteration of the `for line in lines` loop of `new_from_string`. -/
def processLine (owner repo : List Char) (st : ParseState) (line : List Char) :
    Except CsError ParseState :=
  if line.isEmpty then .ok st
  else if line.headD ' ' = '#' then .ok st
  else if pull_request_field_marker.isPrefixOf line then
    match st.pr with
    | some _ => .error .multiplePullRequestFields
    | none =>
      match parse_pull_request (line.drop pull_request_field_marker.length) owner repo with
      | .ok prs =>
        match prs with
        | [p] => .ok { st with pr := some p }
        | _ => .error .pullRequestFieldNotExactlyOne
      | .error _ => .error .pullRequestFieldUnparsable
  else if dependency_field_marker.isPrefixOf line then .ok st
  else
    match st.title with
    | some _ => .ok { st with message := st.message ++ [line] }
    | none => .ok { st with title := some line }

/-- The `for` loop of `new_from_string` over all lines. -/
def parseLines (owner repo : List Char) (st : ParseState) :
    List (List Char) → Except CsError ParseState
  | [] => .ok st
  | line :: rest =>
    match processLine owner repo st line with
    | .error e => .error e
    | .ok st2 => parseLines owner repo st2 rest

/-- `Changeset::new_from_string`. -/
def new_from_string (s owner repo : List Char) : Except CsError Changeset :=
  match parseLines owner repo ⟨none, [], none, []⟩ (rustLines s) with
  | .error e => .error e
  | .ok st =>
    match st.title with
    | none => .error .missingTitle
    | some t =>
      .ok
        { title := t
          message := if st.message.isEmpty then none else some (List.intercalate "\n".data st.message)
          pr := st.pr
          dependencies := st.dependencies }

/-! ## `src/main.rs`: `push_options` and its credentials callback -/

/-- The subset of `git2::CredentialType` the callback inspects. -/
structure CredentialType where
  sshKey : Bool
  userPassPlaintext : Bool
  defaultCred : Bool
deriving DecidableEq

/-- The credential values the callback can produce (`git2::Cred`
constructors used by `push_options`). -/
inductive Cred
  | sshKeyFromAgent (user : List Char)
  | sshKey (user : List Char) (privatekey : List Char)
  | credentialHelper (url : List Char)
  | defaultCred
deriving DecidableEq

/-- The error cases of the credentials callback. -/
inductive GitErr
  | noHomeDirectory
  | noAuthenticationAvailable
deriving DecidableEq

/-- `username_from_url.map(..).or_else(|| cred_helper.username.clone()).unwrap_or_else(|| "git")`. -/
def resolveUsername (usernameFromUrl credHelperUsername : Option (List Char)) : List Char :=
  ((usernameFromUrl).orElse (fun _ => credHelperUsername)).getD "git".data

/-- One credential request made by the remote during a push. -/
structure CredRequest where
  url : List Char
  usernameFromUrl : Option (List Char)
  allowedTypes : CredentialType
deriving DecidableEq

/-- The closure installed by `push_options` via
`push_callbacks.credentials(...)`: `tried_agent` is the captured mutable
flag, `home` the `HOME` environment variable.  Returns the updated flag
and the produced credential. -/
def credentialsCallback (credHelperUsername home : Option (List Char))
    (tried_agent : Bool) (req : CredRequest) : Bool × Except GitErr Cred :=
  if req.allowedTypes.sshKey then
    let user := resolveUsername req.usernameFromUrl credHelperUsername
    if !tried_agent then
      (true, .ok (.sshKeyFromAgent user))
    else
      (tried_agent,
        match home with
        | some h => .ok (.sshKey user (h ++ "/".data ++ ".ssh/id_rsa".data))
        | none => .error .noHomeDirectory)
  else if req.allowedTypes.userPassPlaintext then
    (tried_agent, .ok (.credentialHelper req.url))
  else if req.allowedTypes.defaultCred then
    (tried_agent, .ok .defaultCred)
  else
    (tried_agent, .error .noAuthenticationAvailable)

/-- One `origin.push(..)` call: the remote issues a sequence of credential
requests which the callback answers with the threaded `tried_agent` flag;
a callback error aborts the push.  Returns the final flag, the produced
responses, and whether the credential exchange completed. -/
def runPush (credHelperUsername home : Option (List Char)) :
    Bool → List CredRequest → Bool × List (Except GitErr Cred) × Bool
  | tried, [] => (tried, [], true)
  | tried, r :: rs =>
    match credentialsCallback credHelperUsername home tried r with
    | (tried2, .error e) => (tried2, [.error e], false)
    | (tried2, .ok c) =>
      let (tried3, resps, ok3) := runPush credHelperUsername home tried2 rs
      (tried3, .ok c :: resps, ok3)

/-! ## `src/main.rs`: `run_up` -/

/-- The regex `^git@github\.com:(?P<owner>[^/]+)/(?P<repo>.+)\.git$` used
to extract owner and repository name from the origin url (greedy `.+`
keeps everything up to the final `.git`). -/
def parseOriginUrl (url : List Char) : Option (List Char × List Char) :=
  match dropPre "git@github.com:".data url with
  | none => none
  | some rest =>
    let owner := rest.takeWhile (fun c => c ≠ '/')
    match rest.dropWhile (fun c => c ≠ '/') with
    | '/' :: rest2 =>
      if owner.isEmpty then none
      else if ".git".data.isSuffixOf rest2 && decide (4 < rest2.length) then
        some (owner, rest2.take (rest2.length - 4))
      else none
    | _ => none

/-- A commit as `run_up` observes it: its id, its message
(`git2::Commit::message` is `None` for non-utf8 messages) and the ids of
its parents in order. -/
structure Commit where
  id : List Char
  message : Option (List Char)
  parents : List (List Char)
deriving DecidableEq

/-- How the remote behaves during one `origin.push(..)` call: the
credential requests it issues and whether the transfer itself succeeds. -/
structure PushBehavior where
  credRequests : List CredRequest
  succeeds : Bool
deriving DecidableEq

/-- Everything `run_up` reads from its process environment and its
collaborators (environment variables, git repository, remote, editor,
forge), supplied as one explicit input. -/
structure RunUpInput where
  userVar : Option (List Char)
  repoFound : Bool
  originFound : Bool
  originUrl : Option (List Char)
  githubToken : Option (List Char)
  editorResult : Option (List Char)
  headCommit : Option Commit
  configOk : Bool
  credHelperUsername : Option (List Char)
  homeVar : Option (List Char)
  existingBranches : List (List Char)
  basePush : PushBehavior
  headPush : PushBehavior
  prCreateSucceeds : Bool

/-- The error exits of `run_up`, one per `chain_err`/`ok_or`/`bail!` site. -/
inductive RunErr
  | missingUser
  | notARepository
  | noOriginRemote
  | noRemoteUrl
  | unrecognizedRemoteUrl
  | noGithubToken
  | editorFailed
  | changesetParse (e : CsError)
  | noHead
  | noParent
  | multipleParents
  | noConfig
  | baseBranchCreateFailed
  | basePushFailed
  | headBranchCreateFailed
  | headPushFailed
  | headCommitNoMessage
  | prCreateFailed
deriving DecidableEq

/-- One `repo.branch(name, commit, force)` call. -/
structure BranchOp where
  name : List Char
  target : List Char
  force : Bool
deriving DecidableEq

/-- The argument record of `hubcaps::pulls::PullOptions::new(title, head,
base, body)`. -/
structure PullOptions where
  title : List Char
  head : List Char
  base : List Char
  body : Option (List Char)
deriving DecidableEq

/-- The observable side effects of one `run_up` invocation, in the order
they can occur: editor launch, base branch creation, base push (pushed
refspec and credential responses), head branch creation, head push, and
the pull-request creation call. -/
structure RunUpEffects where
  editorInvoked : Bool
  baseBranch : Option BranchOp
  basePush : Option (List Char × List (Except GitErr Cred))
  headBranch : Option BranchOp
  headPush : Option (List Char × List (Except GitErr Cred))
  prCall : Option PullOptions
deriving DecidableEq

/-- `git2::Repository::branch(name, target, force)`: fails iff the branch
exists and `force` is false; returns the updated branch list. -/
def createBranch (existing : List (List Char)) (name _target : List Char)
    (force : Bool) : Option (List (List Char)) :=
  if force || !existing.contains name then some (name :: existing) else none

/-- The empty effects record (nothing happened yet). -/
def noEffects : RunUpEffects := ⟨false, none, none, none, none, none⟩

/-- `run_up` from `src/main.rs`, step by step in source order: USER, repo
discovery, origin remote and url, owner/repo extraction, GITHUB_TOKEN,
changeset from editor, HEAD commit, single-parent check, repo config,
`push_options` (one shared `tried_agent` flag), base branch create
(force = true) and push, head branch create (force = false) and push,
then `PullOptions::new(head_commit.message(), head_branch, base_branch,
None)` and the create call. -/
def run_up (inp : RunUpInput) : RunUpEffects × Except RunErr Nat :=
  match inp.userVar with
  | none => (noEffects, .error .missingUser)
  | some user =>
  let pr_branch_lead := user ++ "-stack-".data
  let pr_head_branch_tail := "-pr".data
  let pr_base_branch_tail := "-base".data
  match inp.repoFound with
  | false => (noEffects, .error .notARepository)
  | true =>
  match inp.originFound with
  | false => (noEffects, .error .noOriginRemote)
  | true =>
  match inp.originUrl with
  | none => (noEffects, .error .noRemoteUrl)
  | some origin_url =>
  match parseOriginUrl origin_url with
  | none => (noEffects, .error .unrecognizedRemoteUrl)
  | some (github_owner, github_repo_name) =>
  match inp.githubToken with
  | none => (noEffects, .error .noGithubToken)
  | some _token =>
  let eff1 := { noEffects with editorInvoked := true }
  match inp.editorResult with
  | none => (eff1, .error .editorFailed)
  | some buf =>
  match new_from_string buf github_owner github_repo_name with
  | .error e => (eff1, .error (.changesetParse e))
  | .ok _changeset =>
  match inp.headCommit with
  | none => (eff1, .error .noHead)
  | some head_commit =>
  match head_commit.parents with
  | [] => (eff1, .error .noParent)
  | parent :: other_parents =>
  match other_parents with
  | _ :: _ => (eff1, .error .multipleParents)
  | [] =>
  match inp.configOk with
  | false => (eff1, .error .noConfig)
  | true =>
  let tried_agent := false
  let pr_base_branch_name := pr_branch_lead ++ head_commit.id ++ pr_base_branch_tail
  match createBranch inp.existingBranches pr_base_branch_name parent true with
  | none => (eff1, .error .baseBranchCreateFailed)
  | some existing1 =>
  let eff2 := { eff1 with baseBranch := some ⟨pr_base_branch_name, parent, true⟩ }
  let base_ref := "refs/heads/".data ++ pr_base_branch_name
  match runPush inp.credHelperUsername inp.homeVar tried_agent inp.basePush.credRequests with
  | (_tried1, baseResps, false) =>
    ({ eff2 with basePush := some (base_ref, baseResps) }, .error .basePushFailed)
  | (tried1, baseResps, true) =>
  let eff3 := { eff2 with basePush := some (base_ref, baseResps) }
  match inp.basePush.succeeds with
  | false => (eff3, .error .basePushFailed)
  | true =>
  let pr_head_branch_name := pr_branch_lead ++ head_commit.id ++ pr_head_branch_tail
  match createBranch existing1 pr_head_branch_name head_commit.id false with
  | none => (eff3, .error .headBranchCreateFailed)
  | some _existing2 =>
  let eff4 := { eff3 with headBranch := some ⟨pr_head_branch_name, head_commit.id, false⟩ }
  let head_ref := "refs/heads/".data ++ pr_head_branch_name
  match runPush inp.credHelperUsername inp.homeVar tried1 inp.headPush.credRequests with
  | (_tried2, headResps, false) =>
    ({ eff4 with headPush := some (head_ref, headResps) }, .error .headPushFailed)
  | (_tried2, headResps, true) =>
  let eff5 := { eff4 with headPush := some (head_ref, headResps) }
  match inp.headPush.succeeds with
  | false => (eff5, .error .headPushFailed)
  | true =>
  match head_commit.message with
  | none => (eff5, .error .headCommitNoMessage)
  | some msg =>
  let pull_options : PullOptions := ⟨msg, pr_head_branch_name, pr_base_branch_name, none⟩
  let eff6 := { eff5 with prCall := some pull_options }
  match inp.prCreateSucceeds with
  | false => (eff6, .error .prCreateFailed)
  | true => (eff6, .ok 0)

/-! ## Spec-side shape of accepted pull-request references (§4.1) -/

/-- Trim surrounding whitespace. -/
def trimWs (s : List Char) : List Char :=
  ((s.dropWhile isWsChar).reverse.dropWhile isWsChar).reverse

/-- A non-empty all-digit string. -/
def allDigits (s : List Char) : Bool := !s.isEmpty && s.all isDigitChar

/-- The token shapes the claim (following §4.1 of the spec) says are the
only accepted ones, written from the claim's words with the URL text read
literally: after trimming surrounding whitespace, a bare decimal integer,
`#` followed by a decimal integer, or an `https://`/`http://` github.com
pull URL — with a literal `.` in `github.com` — whose owner/repo segments
equal the supplied ones exactly. -/
def specAcceptedShape (owner repo tok : List Char) : Bool :=
  let t := trimWs tok
  allDigits t ||
  (match t with
   | '#' :: r => allDigits r
   | _ => false) ||
  (match dropPre (prUrlHttps owner repo) t with
   | some r => allDigits r
   | none => false) ||
  (match dropPre (prUrlHttp owner repo) t with
   | some r => allDigits r
   | none => false)

/-- The token shapes the code's unescaped regex actually accepts: as
`specAcceptedShape`, except that each `.` of the formatted URL
alternatives is the regex wildcard, matching any single non-newline
character (so e.g. `https://githubXcom/{owner}/{repo}/pull/{n}` is
accepted too). -/
def specAcceptedShapeWide (owner repo tok : List Char) : Bool :=
  let t := trimWs tok
  allDigits t ||
  (match t with
   | '#' :: r => allDigits r
   | _ => false) ||
  (match dropPrePat (toRePats (prUrlHttps owner repo)) t with
   | some r => allDigits r
   | none => false) ||
  (match dropPrePat (toRePats (prUrlHttp owner repo)) t with
   | some r => allDigits r
   | none => false)

/-! ## Concrete scenarios -/

/-- The credential type bitset with only `SSH_KEY` set. -/
def sshOnlyType : CredentialType := ⟨true, false, false⟩

/-- A typical SSH credential request from the origin remote. -/
def sampleSshRequest : CredRequest :=
  ⟨"git@github.com:Coneko/stack.git".data, some "git".data, sshOnlyType⟩

/-- A fully healthy pipeline input: every environment variable set, origin
url `git@github.com:Coneko/stack.git`, a single-parent HEAD commit, a
changeset text with only a title, and both pushes issuing one SSH
credential request each. -/
def okInput : RunUpInput where
  userVar := some "alice".data
  repoFound := true
  originFound := true
  originUrl := some "git@github.com:Coneko/stack.git".data
  githubToken := some "token".data
  editorResult := some "My title\n".data
  headCommit := some ⟨"abc123".data, some "Commit message".data, ["par456".data]⟩
  configOk := true
  credHelperUsername := none
  homeVar := some "/home/alice".data
  existingBranches := []
  basePush := ⟨[sampleSshRequest], true⟩
  headPush := ⟨[sampleSshRequest], true⟩
  prCreateSucceeds := true

/-- `okInput` with a two-parent (merge) HEAD commit. -/
def twoParentInput : RunUpInput :=
  { okInput with
    headCommit := some ⟨"abc123".data, some "Commit message".data, ["p1".data, "p2".data]⟩ }

/-- `okInput` with a branch named like the derived base branch already
present in the repository. -/
def baseCollisionInput : RunUpInput :=
  { okInput with existingBranches := ["alice-stack-abc123-base".data] }

/-! ## Lemmas about the helpers -/

theorem dropPre_eq_some : ∀ {p s r : List Char}, dropPre p s = some r → s = p ++ r
  | [], s, r, h => by simpa [dropPre] using h
  | p :: ps, [], r, h => by simp [dropPre] at h
  | p :: ps, c :: cs, r, h => by
    by_cases hpc : p = c
    · subst hpc
      simp only [dropPre, if_pos rfl] at h
      simpa using dropPre_eq_some h
    · simp [dropPre, hpc] at h

theorem dropPre_append : ∀ (p r : List Char), dropPre p (p ++ r) = some r
  | [], r => rfl
  | p :: ps, r => by simp [dropPre, dropPre_append ps r]

theorem ws_not_digit : ∀ {c : Char}, isWsChar c = true → isDigitChar c = false := by
  intro c h
  cases hd : isDigitChar c with
  | false => rfl
  | true =>
    exfalso
    unfold isWsChar at h
    unfold isDigitChar at hd
    simp only [Bool.or_eq_true, Bool.and_eq_true, decide_eq_true_eq, beq_iff_eq] at h hd
    omega

theorem digit_not_ws {c : Char} (h : isDigitChar c = true) : isWsChar c = false := by
  cases hw : isWsChar c with
  | false => rfl
  | true => rw [ws_not_digit hw] at h; exact Bool.noConfusion h

/-- Trimming trailing whitespace from a string whose core ends in a
non-whitespace character recovers the core. -/
theorem trimRight_ws {ys rest : List Char} {y : Char}
    (hrest : ∀ c ∈ rest, isWsChar c = true) (hy : isWsChar y = false) :
    (((ys ++ [y]) ++ rest).reverse.dropWhile isWsChar).reverse = ys ++ [y] := by
  rw [List.reverse_append, List.reverse_append]
  rw [List.dropWhile_append_of_pos (fun a ha => hrest a (List.mem_reverse.mp ha))]
  simp only [List.reverse_cons, List.reverse_nil, List.nil_append, List.singleton_append]
  rw [List.dropWhile_cons_of_neg (by simp [hy])]
  simp

/-- A successful pattern-prefix match splits the input, and the matched
prefix keeps matching in front of any other suffix. -/
theorem dropPrePat_eq_some : ∀ {ps : List RePat} {s r : List Char},
    dropPrePat ps s = some r →
    ∃ pre, s = pre ++ r ∧ ∀ t, dropPrePat ps (pre ++ t) = some t
  | [], s, r, h => by
    simp only [dropPrePat, Option.some.injEq] at h
    exact ⟨[], by simp [h], fun t => rfl⟩
  | p :: ps, [], r, h => by simp [dropPrePat] at h
  | p :: ps, c :: cs, r, h => by
    cases hm : rePatMatches p c with
    | false => simp [dropPrePat, hm] at h
    | true =>
      simp only [dropPrePat, hm, if_true] at h
      obtain ⟨pre, hpre, hall⟩ := dropPrePat_eq_some h
      exact ⟨c :: pre, by simp [hpre], fun t => by simp [dropPrePat, hm, hall t]⟩

/-- `stripAlt` removes a match of one of the four regex alternatives
(possibly the empty one) from the front of its input. -/
theorem stripAlt_decomp (owner repo s1 : List Char) :
    ∃ pre,
      (pre = [] ∨ pre = ['#'] ∨
        (∀ t, dropPrePat (toRePats (prUrlHttps owner repo)) (pre ++ t) = some t) ∨
        (∀ t, dropPrePat (toRePats (prUrlHttp owner repo)) (pre ++ t) = some t)) ∧
      s1 = pre ++ stripAlt owner repo s1 := by
  unfold stripAlt
  rcases h1 : dropPrePat (toRePats (prUrlHttps owner repo)) s1 with _ | r1
  · simp only [h1]
    rcases h2 : dropPrePat (toRePats (prUrlHttp owner repo)) s1 with _ | r2
    · simp only [h2]
      rcases h3 : dropPre "#".data s1 with _ | r3
      · simp only [h3]
        exact ⟨[], Or.inl rfl, by simp⟩
      · simp only [h3]
        exact ⟨['#'], Or.inr (Or.inl rfl), by simpa using dropPre_eq_some h3⟩
    · simp only [h2]
      obtain ⟨pre, hpre, hall⟩ := dropPrePat_eq_some h2
      exact ⟨pre, Or.inr (Or.inr (Or.inr hall)), hpre⟩
  · simp only [h1]
    obtain ⟨pre, hpre, hall⟩ := dropPrePat_eq_some h1
    exact ⟨pre, Or.inr (Or.inr (Or.inl hall)), hpre⟩

/-- If the code's regex matcher accepts a segment, the segment has one of
the shapes the unescaped regex accepts. -/
theorem matchPrToken_accepted {owner repo s ds : List Char}
    (h : matchPrToken owner repo s = some ds) :
    specAcceptedShapeWide owner repo s = true := by
  obtain ⟨pre, hpre, hdecomp⟩ := stripAlt_decomp owner repo (s.dropWhile isWsChar)
  simp only [matchPrToken] at h
  set s2 := stripAlt owner repo (s.dropWhile isWsChar) with hs2
  by_cases hne : (s2.takeWhile isDigitChar).isEmpty
  · rw [if_pos hne] at h; exact absurd h (by simp)
  rw [if_neg hne] at h
  by_cases hrest : (s2.dropWhile isDigitChar).all isWsChar
  case neg => rw [if_neg hrest] at h; exact absurd h (by simp)
  -- the digit capture and its facts
  have hdigall : (s2.takeWhile isDigitChar).all isDigitChar := List.all_takeWhile
  have hdigok : allDigits (s2.takeWhile isDigitChar) = true := by
    unfold allDigits
    rw [List.all_takeWhile, Bool.and_true]
    simpa using hne
  have hrest2 : ∀ c ∈ s2.dropWhile isDigitChar, isWsChar c = true :=
    fun c hc => List.all_eq_true.mp hrest c hc
  rcases List.eq_nil_or_concat (s2.takeWhile isDigitChar) with hnil | ⟨d0, y, hd⟩
  · rw [hnil] at hne; exact (hne rfl).elim
  rw [List.concat_eq_append] at hd
  have hy : isDigitChar y = true := by
    have hmem : y ∈ s2.takeWhile isDigitChar := by rw [hd]; simp
    exact List.all_eq_true.mp hdigall y hmem
  -- the trimmed token is the stripped alternative plus the digit capture
  have hs2split : s2 = (d0 ++ [y]) ++ s2.dropWhile isDigitChar := by
    conv_lhs => rw [← List.takeWhile_append_dropWhile (p := isDigitChar) (l := s2), hd]
  have hsdw : s.dropWhile isWsChar = ((pre ++ d0) ++ [y]) ++ s2.dropWhile isDigitChar := by
    rw [hdecomp]
    nth_rewrite 1 [hs2split]
    simp [List.append_assoc]
  have htrim : trimWs s = pre ++ s2.takeWhile isDigitChar := by
    unfold trimWs
    rw [hsdw, trimRight_ws hrest2 (digit_not_ws hy), hd]
    simp [List.append_assoc]
  -- conclude through the disjunct matching the stripped alternative
  simp only [specAcceptedShapeWide]
  rw [htrim]
  rcases hpre with rfl | rfl | hall | hall
  · simp [hdigok]
  · simp [hdigok]
  · simp [hdigok, hall]
  · simp [hdigok, hall]

/-! ## Lemmas about the changeset parser -/

/-- One loop iteration keeps the invariant that a recorded title is a
non-empty line. -/
theorem processLine_title_inv {owner repo : List Char} {st st2 : ParseState}
    {line : List Char} (h : processLine owner repo st line = .ok st2)
    (inv : ∀ t, st.title = some t → t ≠ []) :
    ∀ t, st2.title = some t → t ≠ [] := by
  unfold processLine at h
  split at h
  · cases h; exact inv
  · split at h
    · cases h; exact inv
    · split at h
      · split at h
        · exact absurd h (by simp)
        · split at h
          · split at h
            · cases h; exact inv
            · exact absurd h (by simp)
          · exact absurd h (by simp)
      · split at h
        · cases h; exact inv
        · split at h
          · cases h; exact inv
          · cases h
            intro t ht hnil
            simp at ht
            subst hnil
            simp_all

/-- The loop keeps the title invariant across all lines. -/
theorem parseLines_title_inv {owner repo : List Char} :
    ∀ (lines : List (List Char)) (st st2 : ParseState),
      parseLines owner repo st lines = .ok st2 →
      (∀ t, st.title = some t → t ≠ []) →
      (∀ t, st2.title = some t → t ≠ [])
  | [], st, st2, h, inv => by
    simp only [parseLines] at h
    cases h
    exact inv
  | line :: rest, st, st2, h, inv => by
    simp only [parseLines] at h
    cases hp : processLine owner repo st line with
    | error e => rw [hp] at h; exact absurd h (by simp)
    | ok st1 =>
      rw [hp] at h
      exact parseLines_title_inv rest st1 st2 h (processLine_title_inv hp inv)

/-- Lines that are empty or start with `#` leave the loop state
untouched. -/
theorem parseLines_all_comment {owner repo : List Char} :
    ∀ (lines : List (List Char)) (st : ParseState),
      (∀ l ∈ lines, l = [] ∨ l.headD ' ' = '#') →
      parseLines owner repo st lines = .ok st
  | [], _, _ => rfl
  | line :: rest, st, hall => by
    have hline := hall line (by simp)
    have hrest : ∀ l ∈ rest, l = [] ∨ l.headD ' ' = '#' :=
      fun l hl => hall l (by simp [hl])
    have hpl : processLine owner repo st line = .ok st := by
      rcases hline with rfl | hhash
      · rfl
      · unfold processLine
        rcases hline2 : line with _ | ⟨c, cs⟩
        · rfl
        · rw [hline2] at hhash
          simp at hhash
          rw [hhash]
          simp
    simp only [parseLines, hpl]
    exact parseLines_all_comment rest st hrest

/-! ## Lemmas about the credentials callback -/

/-- Once the agent has been tried, every further SSH-key request is
answered from the key file under `HOME`. -/
theorem runPush_ssh_after_agent (chu : Option (List Char)) (hm : List Char) :
    ∀ rs : List CredRequest, (∀ q ∈ rs, q.allowedTypes = sshOnlyType) →
      runPush chu (some hm) true rs =
        (true,
          rs.map (fun q => .ok (.sshKey (resolveUsername q.usernameFromUrl chu)
            (hm ++ "/".data ++ ".ssh/id_rsa".data))),
          true)
  | [], _ => rfl
  | r :: rs, hall => by
    have hr := hall r (by simp)
    have ih := runPush_ssh_after_agent chu hm rs (fun q hq => hall q (by simp [hq]))
    simp [runPush, credentialsCallback, hr, sshOnlyType, ih]

/-! ## Anatomy of a successful pipeline run -/

/-- In every run of `run_up` that returns `Ok(0)`, all gates passed and
the recorded effects are exactly the derived branch operations, pushes
and pull-request call. -/
theorem run_up_ok_extract {inp : RunUpInput} {eff : RunUpEffects}
    (h : run_up inp = (eff, Except.ok 0)) :
    ∃ user head_commit parent msg tried1 baseResps tried2 headResps,
      inp.userVar = some user ∧
      inp.headCommit = some head_commit ∧
      head_commit.parents = [parent] ∧
      head_commit.message = some msg ∧
      eff.editorInvoked = true ∧
      eff.baseBranch =
        some ⟨user ++ "-stack-".data ++ head_commit.id ++ "-base".data, parent, true⟩ ∧
      runPush inp.credHelperUsername inp.homeVar false inp.basePush.credRequests =
        (tried1, baseResps, true) ∧
      eff.basePush =
        some ("refs/heads/".data ++ user ++ "-stack-".data ++ head_commit.id ++ "-base".data,
          baseResps) ∧
      eff.headBranch =
        some ⟨user ++ "-stack-".data ++ head_commit.id ++ "-pr".data, head_commit.id, false⟩ ∧
      runPush inp.credHelperUsername inp.homeVar tried1 inp.headPush.credRequests =
        (tried2, headResps, true) ∧
      eff.headPush =
        some ("refs/heads/".data ++ user ++ "-stack-".data ++ head_commit.id ++ "-pr".data,
          headResps) ∧
      eff.prCall =
        some ⟨msg, user ++ "-stack-".data ++ head_commit.id ++ "-pr".data,
          user ++ "-stack-".data ++ head_commit.id ++ "-base".data, none⟩ := by
  unfold run_up at h
  simp only [noEffects] at h
  repeat' split at h
  any_goals solve
    | (exfalso; revert h; simp)
  injection h with h1 h2
  subst h1
  exact ⟨_, _, _, _, _, _, _, _, by assumption, by assumption, by assumption, by assumption,
    rfl, rfl, by assumption, rfl, rfl, by assumption, rfl, rfl⟩

/-- Claim C10: for any two pipeline runs that differ only in the changeset
text obtained from the editor, provided both texts parse successfully,
every output of the pipeline — branch creations, pushed refs, credential
responses, the pull-request call and the result — is identical: no field
of the parsed Changeset influences the pipeline. -/
theorem C10_changeset_noninterference (inp : RunUpInput)
    (url owner repo t1 t2 : List Char) (cs1 cs2 : Changeset)
    (hu : inp.originUrl = some url)
    (hp : parseOriginUrl url = some (owner, repo))
    (h1 : new_from_string t1 owner repo = .ok cs1)
    (h2 : new_from_string t2 owner repo = .ok cs2) :
    run_up { inp with editorResult := some t1 } =
      run_up { inp with editorResult := some t2 } := by
  obtain ⟨uv, rf, ofo, ou, gt, er, hcm, cok, chu, hv, eb, bpu, hpu, pcs⟩ := inp
  dsimp only at hu
  subst hu
  unfold run_up
  dsimp only
  cases uv with
  | none => rfl
  | some user =>
  cases rf
  · rfl
  cases ofo
  · rfl
  rw [hp]
  cases gt with
  | none => rfl
  | some tk =>
  dsimp only
  rw [h1, h2]

/-- Claim C3 (amended): the pipeline creates the base branch with
force = true, so a branch that already has the derived base branch name
is overwritten rather than causing a BranchAlreadyExists failure — its
presence changes nothing about the run.  (The head branch, created with
force = false, is the one that fails when its name already exists.) -/
theorem C3_base_branch_force_overwrites (inp : RunUpInput) (user : List Char) (c : Commit)
    (hu : inp.userVar = some user) (hc : inp.headCommit = some c) :
    run_up { inp with existingBranches :=
      (user ++ "-stack-".data ++ c.id ++ "-base".data) :: inp.existingBranches } =
      run_up inp := by
  obtain ⟨uv, rf, ofo, ou, gt, er, hcm, cok, chu, hv, eb, bpu, hpu, pcs⟩ := inp
  dsimp only at hu hc
  subst hu
  subst hc
  unfold run_up
  dsimp only
  cases rf
  · rfl
  cases ofo
  · rfl
  cases ou with
  | none => rfl
  | some url =>
  dsimp only
  cases hpo : parseOriginUrl url with
  | none => rfl
  | some pr =>
  obtain ⟨owner, repo⟩ := pr
  cases gt with
  | none => rfl
  | some tk =>
  dsimp only
  cases er with
  | none => rfl
  | some buf =>
  dsimp only
  cases hcs : new_from_string buf owner repo with
  | error e => rfl
  | ok cs =>
  dsimp only
  cases hpar : c.parents with
  | nil => rfl
  | cons parent rest =>
  cases rest with
  | cons q qs => rfl
  | nil =>
  cases cok
  · rfl
  dsimp only [createBranch, Bool.true_or]
  rcases hrp : runPush chu hv false bpu.credRequests with ⟨tried1, resps1, ok1⟩
  cases ok1
  · rfl
  cases hbs : bpu.succeeds
  · rfl
  simp only [createBranch, Bool.false_or, List.contains_cons, Bool.or_self_left, reduceIte]
  by_cases hm : user ++ '-' :: 's' :: 't' :: 'a' :: 'c' :: 'k' :: '-' :: (c.id ++ ['-', 'p', 'r']) ∈ eb
  · simp [hm]
  · simp [hm]

/-- Claim C5 (amended): the Changeset is acquired via the editor before
the HEAD commit's parent count is validated: when every earlier gate
passes and the changeset parses, a HEAD with zero or multiple parents
makes the run fail with NoParent/MultipleParents only after the editor
has already been invoked. -/
theorem C5_editor_invoked_before_parent_validation (inp : RunUpInput)
    (user url owner repo tk buf : List Char) (cs : Changeset) (c : Commit)
    (h1 : inp.userVar = some user) (h2 : inp.repoFound = true)
    (h3 : inp.originFound = true) (h4 : inp.originUrl = some url)
    (h5 : parseOriginUrl url = some (owner, repo))
    (h6 : inp.githubToken = some tk)
    (h7 : inp.editorResult = some buf)
    (h8 : new_from_string buf owner repo = .ok cs)
    (h9 : inp.headCommit = some c)
    (h10 : c.parents.length ≠ 1) :
    (run_up inp).1.editorInvoked = true ∧
      ((run_up inp).2 = .error .noParent ∨ (run_up inp).2 = .error .multipleParents) := by
  obtain ⟨uv, rf, ofo, ou, gt, er, hcm, cok, chu, hv, eb, bpu, hpu, pcs⟩ := inp
  dsimp only at h1 h2 h3 h4 h6 h7 h9
  subst h1
  subst h2
  subst h3
  subst h4
  subst h6
  subst h7
  subst h9
  unfold run_up
  dsimp only
  rw [h5]
  dsimp only
  rw [h8]
  dsimp only
  cases hpar : c.parents with
  | nil => simp [noEffects]
  | cons p rest =>
    cases rest with
    | nil => rw [hpar] at h10; simp at h10
    | cons q qs => simp [noEffects]

/-! ## Claims -/

/-- Claim C1 (code-bug evidence): the `Depends on:` arm of
`new_from_string` is a no-op (`=> ()`), so the dependency list of the
parsed changeset is always empty — for the claim's own example text the
parser returns dependencies `[]`, not `[1, 2, 3]` as the spec and the
repository's `new_from_string_can_read_dependencies` test expect. -/
theorem C1_dependencies_ignored :
    new_from_string
      "This is the title.\nDepends on: https://github.com/Coneko/stack/pull/1, https://github.com/Coneko/stack/pull/2\nDepends on: https://github.com/Coneko/stack/pull/3\n".data
      "Coneko".data "stack".data =
      .ok ⟨"This is the title.".data, none, none, []⟩ ∧
    ([] : List Nat) ≠ [1, 2, 3] :=
  ⟨by decide, by decide⟩

/-- Claim C2 counterexample: a successful pipeline run whose changeset
text parses with title `My title`, while the pull-request creation call
receives the HEAD commit message `Commit message` as its title (and no
body) — not the parsed Changeset's title. -/
theorem C2_counterexample :
    (run_up okInput).2 = .ok 0 ∧
    okInput.editorResult = some "My title\n".data ∧
    new_from_string "My title\n".data "Coneko".data "stack".data =
      .ok ⟨"My title".data, none, none, []⟩ ∧
    (run_up okInput).1.prCall =
      some ⟨"Commit message".data, "alice-stack-abc123-pr".data,
        "alice-stack-abc123-base".data, none⟩ ∧
    "Commit message".data ≠ "My title".data :=
  ⟨by decide, by decide, by decide, by decide, by decide⟩

/-- Claim C2 (amended): in every successful pipeline run, the pull-request
creation call receives title = the HEAD commit message, head = the derived
head branch name, base = the derived base branch name, and body = None;
the parsed Changeset's fields are not consulted. -/
theorem C2_pr_call_arguments {inp : RunUpInput} {eff : RunUpEffects}
    (h : run_up inp = (eff, Except.ok 0)) :
    ∃ user head_commit msg,
      inp.userVar = some user ∧
      inp.headCommit = some head_commit ∧
      head_commit.message = some msg ∧
      eff.prCall = some ⟨msg,
        user ++ "-stack-".data ++ head_commit.id ++ "-pr".data,
        user ++ "-stack-".data ++ head_commit.id ++ "-base".data, none⟩ := by
  obtain ⟨user, hcmt, parent, msg, t1, br, t2, hr,
    h1, h2, h3, h4, h5, h6, h7, h8, h9, h10, h11, h12⟩ := run_up_ok_extract h
  exact ⟨user, hcmt, msg, h1, h2, h4, h12⟩

/-- Witness for claim C2's amended theorem at the healthy input. -/
theorem C2_pr_call_arguments_witness :
    ∃ user head_commit msg,
      okInput.userVar = some user ∧
      okInput.headCommit = some head_commit ∧
      head_commit.message = some msg ∧
      (run_up okInput).1.prCall = some ⟨msg,
        user ++ "-stack-".data ++ head_commit.id ++ "-pr".data,
        user ++ "-stack-".data ++ head_commit.id ++ "-base".data, none⟩ :=
  C2_pr_call_arguments (show run_up okInput = ((run_up okInput).1, Except.ok 0) from rfl)

/-- Claim C3 counterexample: a branch with the derived base branch name
already exists, yet the run succeeds end to end — the base branch is
created with force = true and overwritten, instead of the run failing
with a BranchAlreadyExists error. -/
theorem C3_counterexample :
    baseCollisionInput.existingBranches = ["alice-stack-abc123-base".data] ∧
    (run_up baseCollisionInput).1.baseBranch =
      some ⟨"alice-stack-abc123-base".data, "par456".data, true⟩ ∧
    (run_up baseCollisionInput).2 = .ok 0 :=
  ⟨by decide, by decide, by decide⟩

/-- Witness for claim C3's amended theorem at the healthy input. -/
theorem C3_witness :
    run_up { okInput with existingBranches :=
      ("alice".data ++ "-stack-".data ++ "abc123".data ++ "-base".data) ::
        okInput.existingBranches } = run_up okInput :=
  C3_base_branch_force_overwrites okInput "alice".data
    ⟨"abc123".data, some "Commit message".data, ["par456".data]⟩ rfl rfl

/-- Claim C4 counterexample: both pushes issue one SSH-only credential
request each; the base push's request is answered with the agent-backed
credential, but the head push's first request is answered with the
key-file credential — the "agent already tried" flag carried over, and an
agent-backed response never appears in the head push. -/
theorem C4_counterexample :
    (run_up okInput).2 = .ok 0 ∧
    okInput.basePush.credRequests = [sampleSshRequest] ∧
    okInput.headPush.credRequests = [sampleSshRequest] ∧
    sampleSshRequest.allowedTypes = sshOnlyType ∧
    (run_up okInput).1.basePush =
      some ("refs/heads/alice-stack-abc123-base".data,
        [.ok (.sshKeyFromAgent "git".data)]) ∧
    (run_up okInput).1.headPush =
      some ("refs/heads/alice-stack-abc123-pr".data,
        [.ok (.sshKey "git".data "/home/alice/.ssh/id_rsa".data)]) ∧
    ∀ u, (Except.ok (Cred.sshKey "git".data "/home/alice/.ssh/id_rsa".data) :
        Except GitErr Cred) ≠ Except.ok (Cred.sshKeyFromAgent u) :=
  ⟨by decide, by decide, by decide, by decide, by decide, by decide,
    fun u h => by simp at h⟩

/-- Claim C4 (amended): a single `push_options` credentials callback — and
with it the `tried_agent` flag — is shared by both branch pushes of one
run, so in a successful run where the base push consumed the single
SSH-key request (answered from the agent), the head push's first SSH-key
request is answered from the key file under HOME, not from the agent. -/
theorem C4_tried_agent_flag_persists {inp : RunUpInput} {eff : RunUpEffects}
    (r1 r2 : CredRequest) (rs : List CredRequest)
    (h : run_up inp = (eff, Except.ok 0))
    (hb : inp.basePush.credRequests = [r1]) (hb1 : r1.allowedTypes = sshOnlyType)
    (hh : inp.headPush.credRequests = r2 :: rs) (hh1 : r2.allowedTypes = sshOnlyType) :
    ∃ user head_commit hm rest,
      inp.userVar = some user ∧
      inp.headCommit = some head_commit ∧
      inp.homeVar = some hm ∧
      eff.basePush = some
        ("refs/heads/".data ++ user ++ "-stack-".data ++ head_commit.id ++ "-base".data,
          [.ok (.sshKeyFromAgent (resolveUsername r1.usernameFromUrl inp.credHelperUsername))]) ∧
      eff.headPush = some
        ("refs/heads/".data ++ user ++ "-stack-".data ++ head_commit.id ++ "-pr".data,
          .ok (.sshKey (resolveUsername r2.usernameFromUrl inp.credHelperUsername)
            (hm ++ "/.ssh/id_rsa".data)) :: rest) := by
  obtain ⟨user, hcmt, parent, msg, t1, br, t2, hr,
    h1, h2, h3, h4, h5, h6, h7, h8, h9, h10, h11, h12⟩ := run_up_ok_extract h
  rw [hb] at h7
  have hbase : runPush inp.credHelperUsername inp.homeVar false [r1] =
      (true, [.ok (.sshKeyFromAgent (resolveUsername r1.usernameFromUrl
        inp.credHelperUsername))], true) := by
    simp [runPush, credentialsCallback, hb1, sshOnlyType]
  rw [hbase] at h7
  injection h7 with h7a h7b
  injection h7b with h7b h7c
  subst h7a
  subst h7b
  rw [hh] at h10
  rcases hhv : inp.homeVar with _ | hm
  · rw [hhv] at h10
    simp [runPush, credentialsCallback, hh1, sshOnlyType] at h10
  · rw [hhv] at h10
    simp [runPush, credentialsCallback, hh1, sshOnlyType] at h10
    obtain ⟨h10a, h10b, h10c⟩ := h10
    subst h10b
    exact ⟨user, hcmt, hm, _, h1, h2, rfl, h8, h11⟩

/-- Witness for claim C4's amended theorem at the healthy input. -/
theorem C4_witness :
    ∃ user head_commit hm rest,
      okInput.userVar = some user ∧
      okInput.headCommit = some head_commit ∧
      okInput.homeVar = some hm ∧
      (run_up okInput).1.basePush = some
        ("refs/heads/".data ++ user ++ "-stack-".data ++ head_commit.id ++ "-base".data,
          [.ok (.sshKeyFromAgent (resolveUsername sampleSshRequest.usernameFromUrl
            okInput.credHelperUsername))]) ∧
      (run_up okInput).1.headPush = some
        ("refs/heads/".data ++ user ++ "-stack-".data ++ head_commit.id ++ "-pr".data,
          .ok (.sshKey (resolveUsername sampleSshRequest.usernameFromUrl
            okInput.credHelperUsername)
            (hm ++ "/.ssh/id_rsa".data)) :: rest) :=
  C4_tried_agent_flag_persists sampleSshRequest sampleSshRequest []
    (show run_up okInput = ((run_up okInput).1, Except.ok 0) from rfl) rfl rfl rfl rfl

/-- Claim C5 counterexample: with a two-parent HEAD commit the run fails
with MultipleParents, but the editor has already been invoked — the
parent-count validation does not precede changeset acquisition. -/
theorem C5_counterexample :
    run_up twoParentInput =
      (⟨true, none, none, none, none, none⟩, .error .multipleParents) := by
  decide

/-- Witness for claim C5's amended theorem at the two-parent input. -/
theorem C5_witness :
    (run_up twoParentInput).1.editorInvoked = true ∧
      ((run_up twoParentInput).2 = .error .noParent ∨
        (run_up twoParentInput).2 = .error .multipleParents) :=
  C5_editor_invoked_before_parent_validation twoParentInput "alice".data
    "git@github.com:Coneko/stack.git".data "Coneko".data "stack".data "token".data
    "My title\n".data ⟨"My title".data, none, none, []⟩
    ⟨"abc123".data, some "Commit message".data, ["p1".data, "p2".data]⟩
    rfl rfl rfl rfl (by decide) rfl rfl (by decide) rfl (by decide)

/-- Claim C6: resolving the tokens `1`, `#1`,
`https://github.com/Coneko/stack/pull/1` and
`http://github.com/Coneko/stack/pull/1` against owner `Coneko` and repo
`stack` all succeed and yield the identifier 1. -/
theorem C6_reference_forms_resolve :
    parse_pull_request "1".data "Coneko".data "stack".data = .ok [1] ∧
    parse_pull_request "#1".data "Coneko".data "stack".data = .ok [1] ∧
    parse_pull_request "https://github.com/Coneko/stack/pull/1".data
      "Coneko".data "stack".data = .ok [1] ∧
    parse_pull_request "http://github.com/Coneko/stack/pull/1".data
      "Coneko".data "stack".data = .ok [1] :=
  ⟨by decide, by decide, by decide, by decide⟩

/-- Claim C7 counterexample: the regex is built with `format!` and no
escaping, so the `.` of `github.com` is a wildcard — the token
`https://githubXcom/Coneko/stack/pull/1`, which is none of the claim's
accepted shapes (bare integer, `#`-integer, or a literal github.com pull
URL), nevertheless resolves successfully to 1. -/
theorem C7_counterexample :
    specAcceptedShape "Coneko".data "stack".data
      "https://githubXcom/Coneko/stack/pull/1".data = false ∧
    resolveToken "https://githubXcom/Coneko/stack/pull/1".data
      "Coneko".data "stack".data = .ok 1 ∧
    parse_pull_request "https://githubXcom/Coneko/stack/pull/1".data
      "Coneko".data "stack".data = .ok [1] :=
  ⟨by decide, by decide, by decide⟩

/-- Claim C7 (amended): every token that is not, after trimming
surrounding (Unicode) whitespace, a bare decimal integer, `#` followed by
a decimal integer, or an http(s) URL of the shape
`http(s)://github.com/{owner}/{repo}/pull/{n}` in which each `.` of the
formatted pattern is the unescaped regex wildcard (any one non-newline
character) while the owner/repo segments match the supplied owner and
repo exactly and case-sensitively, fails to resolve with the no-match
error; no token outside these widened shapes is accepted. -/
theorem C7_resolution_rejects_unaccepted_tokens (owner repo tok : List Char)
    (h : specAcceptedShapeWide owner repo tok = false) :
    resolveToken tok owner repo = .error .noMatch := by
  unfold resolveToken
  cases hm : matchPrToken owner repo tok with
  | none => rfl
  | some ds =>
    rw [matchPrToken_accepted hm] at h
    exact Bool.noConfusion h

/-- Witness for claim C7's amended theorem at a concrete rejected token. -/
theorem C7_witness :
    specAcceptedShapeWide "Coneko".data "stack".data
      "not a valid PR reference".data = false ∧
    resolveToken "not a valid PR reference".data "Coneko".data "stack".data =
      .error .noMatch :=
  ⟨by decide, C7_resolution_rejects_unaccepted_tokens "Coneko".data "stack".data
    "not a valid PR reference".data (by decide)⟩

/-- Claim C8: within a single credentials-callback instance, when SSH-key
authentication is the only allowed method, the first request is answered
with the SSH-agent-backed credential and every subsequent request with a
credential built from the key file `{HOME}/.ssh/id_rsa`; when `HOME` is
unset, the request after the agent attempt fails with NoHomeDirectory. -/
theorem C8_ssh_credential_sequence (chu home : Option (List Char)) (r : CredRequest)
    (rs : List CredRequest) (hall : ∀ q ∈ r :: rs, q.allowedTypes = sshOnlyType) :
    (∀ hm, home = some hm →
      runPush chu home false (r :: rs) =
        (true,
          .ok (.sshKeyFromAgent (resolveUsername r.usernameFromUrl chu)) ::
            rs.map (fun q => .ok (.sshKey (resolveUsername q.usernameFromUrl chu)
              (hm ++ "/".data ++ ".ssh/id_rsa".data))),
          true)) ∧
    (home = none → ∀ q qs, rs = q :: qs →
      runPush chu home false (r :: rs) =
        (true, [.ok (.sshKeyFromAgent (resolveUsername r.usernameFromUrl chu)),
          .error .noHomeDirectory], false)) := by
  constructor
  · rintro hm rfl
    have hr := hall r (by simp)
    have ih := runPush_ssh_after_agent chu hm rs (fun q hq => hall q (by simp [hq]))
    simp [runPush, credentialsCallback, hr, sshOnlyType, ih]
  · rintro rfl q qs rfl
    have hr := hall r (by simp)
    have hq := hall q (by simp)
    simp [runPush, credentialsCallback, hr, hq, sshOnlyType]

/-- Witness for claim C8's theorem: two concrete SSH-only request
sequences, one with HOME set and one without. -/
theorem C8_witness :
    runPush none (some "/root".data) false [sampleSshRequest, sampleSshRequest] =
      (true,
        [.ok (.sshKeyFromAgent "git".data),
          .ok (.sshKey "git".data "/root/.ssh/id_rsa".data)], true) ∧
    runPush none none false [sampleSshRequest, sampleSshRequest] =
      (true, [.ok (.sshKeyFromAgent "git".data), .error .noHomeDirectory], false) := by
  constructor
  · have := (C8_ssh_credential_sequence none (some "/root".data) sampleSshRequest
      [sampleSshRequest] (by decide)).1 "/root".data rfl
    simpa using this
  · have := (C8_ssh_credential_sequence none none sampleSshRequest
      [sampleSshRequest] (by decide)).2 rfl sampleSshRequest [] rfl
    simpa using this

/-- Claim C9: every successfully parsed Changeset has a non-empty title,
and every text all of whose lines are blank (empty) or `#`-prefixed
comments fails to parse with the MissingTitle error. -/
theorem C9_title_invariant :
    (∀ (s owner repo : List Char) (cs : Changeset),
      new_from_string s owner repo = .ok cs → cs.title ≠ []) ∧
    (∀ s owner repo : List Char,
      (∀ l ∈ rustLines s, l = [] ∨ l.headD ' ' = '#') →
      new_from_string s owner repo = .error .missingTitle) := by
  constructor
  · intro s owner repo cs h
    unfold new_from_string at h
    cases hpl : parseLines owner repo ⟨none, [], none, []⟩ (rustLines s) with
    | error e => rw [hpl] at h; exact absurd h (by simp)
    | ok st =>
      rw [hpl] at h
      dsimp only at h
      cases hti : st.title with
      | none => rw [hti] at h; exact absurd h (by simp)
      | some t =>
        rw [hti] at h
        dsimp only at h
        have hinv := parseLines_title_inv (rustLines s) ⟨none, [], none, []⟩ st hpl
          (fun t2 ht2 => by simp at ht2) t hti
        injection h with h2
        subst h2
        exact hinv
  · intro s owner repo hall
    unfold new_from_string
    rw [parseLines_all_comment (rustLines s) ⟨none, [], none, []⟩ hall]

/-- Witness for claim C9's theorem: a one-line title parses with a
non-empty title, and an all-comment text fails with MissingTitle. -/
theorem C9_witness :
    ((⟨"Hi".data, none, none, []⟩ : Changeset).title ≠ []) ∧
    new_from_string "\n# comment\n".data "Coneko".data "stack".data =
      .error .missingTitle :=
  ⟨C9_title_invariant.1 "Hi\n".data "Coneko".data "stack".data
      ⟨"Hi".data, none, none, []⟩ (by decide),
    C9_title_invariant.2 "\n# comment\n".data "Coneko".data "stack".data (by decide)⟩

/-- Witness for claim C10's theorem: two parsing changeset texts with
different titles, bodies and dependency fields produce identical runs. -/
theorem C10_witness :
    run_up { okInput with editorResult := some "My title\n".data } =
      run_up { okInput with editorResult := some "Other title\nBody.\nDepends on: 7\n".data } :=
  C10_changeset_noninterference okInput "git@github.com:Coneko/stack.git".data
    "Coneko".data "stack".data
    "My title\n".data "Other title\nBody.\nDepends on: 7\n".data
    ⟨"My title".data, none, none, []⟩ ⟨"Other title".data, some "Body.".data, none, []⟩
    rfl (by decide) (by decide) (by decide)

end Stack
